import Mathlib

/-!
# Verification of `dat_file_processor.py`

A shallow embedding of the `.dat`-file merging pipeline:

* `combine_deduplicate_and_calculate_salary` — merges the per-file row lists,
  removes duplicate rows (by exact tuple equality of the original string
  fields) and appends the integer gross salary `int(row[5]) + int(row[6])`
  to every retained row;
* `calculate_salaries` — extracts the trailing gross-salary column, and
  computes the second highest distinct value (`sorted(set(salaries))[-2]`)
  and the average rounded to one decimal place;
* `main` — the orchestrator: discovers `.dat` entries, checks headers,
  ensures the output directory, runs the two stages above and writes one
  output file.  Filesystem effects are modelled as an explicit event trace.

Python's exceptions are modelled with `Except`; Python's machine floats are
modelled as exact rationals, with `round(x, 1)` modelled as round-half-even
at one decimal on the exact quotient.
-/

/-- A data row as read from an input file: an ordered list of string fields
(the Python code keeps rows as lists of strings from `csv.reader`). -/
abbrev Row := List String

/-- A cell of a merged row.  The Python code appends the *integer* gross
salary to a list of strings, so merged rows are heterogeneous: original
fields stay strings, the appended gross salary is an integer. -/
inductive Cell where
  | str : String → Cell
  | int : Int → Cell
deriving DecidableEq

/-- A merged ("derived") row: original string fields plus the appended
integer gross salary. -/
abbrev DerivedRow := List Cell

/-- The value of a nonempty all-decimal-digit character list; `none`
otherwise.  Used to model Python's `int()` on the digit part. -/
def decDigitsVal (cs : List Char) : Option Nat :=
  if cs ≠ [] ∧ cs.all Char.isDigit then
    some (cs.foldl (fun acc c => acc * 10 + (c.toNat - 48)) 0)
  else none

/-- Strip leading and trailing whitespace from a character list, modelling
the whitespace stripping Python's `int()` performs. -/
def trimChars (cs : List Char) : List Char :=
  ((cs.dropWhile Char.isWhitespace).reverse.dropWhile Char.isWhitespace).reverse

/-- Model of Python's `int(s)` on a string: strip surrounding whitespace,
allow one optional leading sign, then a nonempty run of decimal digits.
Returns `none` where Python raises `ValueError`. -/
def parsePyInt (s : String) : Option Int :=
  match trimChars s.toList with
  | '-' :: rest => (decDigitsVal rest).map (fun n => -(n : Int))
  | '+' :: rest => (decDigitsVal rest).map (fun n => (n : Int))
  | cs => (decDigitsVal cs).map (fun n => (n : Int))

/-- The two exception kinds the merge stage can raise:
`valueConversion` models `ValueError` (a salary field fails `int()`),
`missingField` models `IndexError` (the row is too short for `row[5]` or
`row[6]`). -/
inductive MergeError where
  | valueConversion
  | missingField
deriving DecidableEq

/-- One row's gross-salary computation `int(row[5]) + int(row[6])`,
faithful to Python's evaluation order: `row[5]` is indexed first (possible
`IndexError`), then converted (possible `ValueError`), then `row[6]` is
indexed, then converted. -/
def rowSalary (row : Row) : Except MergeError Int :=
  match row[5]? with
  | none => .error .missingField
  | some s5 =>
    match parsePyInt s5 with
    | none => .error .valueConversion
    | some b =>
      match row[6]? with
      | none => .error .missingField
      | some s6 =>
        match parsePyInt s6 with
        | none => .error .valueConversion
        | some a => .ok (b + a)

/-- The merged row built for a retained row: the original fields (as
strings) with the integer gross salary appended, modelling
`row + [combined_salary]`. -/
def mkDerivedRow (row : Row) (g : Int) : DerivedRow :=
  row.map Cell.str ++ [Cell.int g]

/-- The inner loop of `combine_deduplicate_and_calculate_salary` over the
rows of one file: `seen` models the Python set `unique_rows_set`
(membership in a list of rows is tuple equality), `acc` models
`combined_rows`.  A duplicate row is skipped before any field access; a
fresh row is marked seen and its gross salary computed, any exception
aborting the whole computation. -/
def dedupRowsAux (seen : List Row) (acc : List DerivedRow) :
    List Row → Except MergeError (List Row × List DerivedRow)
  | [] => .ok (seen, acc)
  | row :: rest =>
    if row ∈ seen then dedupRowsAux seen acc rest
    else
      match rowSalary row with
      | .error e => .error e
      | .ok g => dedupRowsAux (row :: seen) (acc ++ [mkDerivedRow row g]) rest

/-- The outer loop of `combine_deduplicate_and_calculate_salary` over the
per-file row lists, threading the seen-set and the accumulator. -/
def dedupFilesAux (seen : List Row) (acc : List DerivedRow) :
    List (List Row) → Except MergeError (List DerivedRow)
  | [] => .ok acc
  | rows :: rest =>
    match dedupRowsAux seen acc rows with
    | .error e => .error e
    | .ok (seen2, acc2) => dedupFilesAux seen2 acc2 rest

/-- `combine_deduplicate_and_calculate_salary(all_rows)`: iterate all files
in order, then all rows within each file, keeping the first occurrence of
each distinct row tuple and appending its gross salary. -/
def combine_deduplicate_and_calculate_salary (all_rows : List (List Row)) :
    Except MergeError (List DerivedRow) :=
  dedupFilesAux [] [] all_rows

/-- Spec-side characterisation (from the spec's words, for the refinement
claims): keep the first occurrence of each element, given the elements
already seen. -/
def specFirstDedupAux {α : Type} [DecidableEq α] (seen : List α) :
    List α → List α
  | [] => []
  | a :: rest =>
    if a ∈ seen then specFirstDedupAux seen rest
    else a :: specFirstDedupAux (a :: seen) rest

/-- Spec-side characterisation: one element per distinct value, in
first-occurrence order. -/
def specFirstOccurrenceDedup {α : Type} [DecidableEq α] (l : List α) :
    List α :=
  specFirstDedupAux [] l

/-- The exception kinds of `calculate_salaries`:
`valueConversion` models `ValueError` (a row's last field fails `int()`),
`indexError` models `IndexError` (an empty row for `row[-1]`, or
`unique_salaries[-2]` on fewer than 2 entries), `zeroDivision` models
`ZeroDivisionError` (`sum(salaries)/len(salaries)` with zero rows). -/
inductive StatError where
  | valueConversion
  | indexError
  | zeroDivision
deriving DecidableEq

/-- Python's `int(x)` applied to a cell of a merged row: an integer cell is
returned as is, a string cell is parsed. -/
def pyIntOfField : Cell → Except StatError Int
  | .int n => .ok n
  | .str s =>
    match parsePyInt s with
    | some n => .ok n
    | none => .error .valueConversion

/-- `int(row[-1])` for one merged row: `row[-1]` raises `IndexError` on an
empty row, then `int()` may raise `ValueError`. -/
def rowLastSalary (row : DerivedRow) : Except StatError Int :=
  match row.getLast? with
  | none => .error .indexError
  | some f => pyIntOfField f

/-- The list comprehension `[int(row[-1]) for row in rows]`, evaluated left
to right, the first exception aborting it. -/
def extractSalaries : List DerivedRow → Except StatError (List Int)
  | [] => .ok []
  | row :: rest =>
    match rowLastSalary row with
    | .error e => .error e
    | .ok n =>
      match extractSalaries rest with
      | .error e => .error e
      | .ok ns => .ok (n :: ns)

/-- `list(sorted(set(salaries)))`: the distinct values in ascending order. -/
def sortedDistinct (l : List Int) : List Int :=
  List.insertionSort (· ≤ ·) l.dedup

/-- Python's negative indexing `l[-2]`: valid exactly when the list has at
least 2 entries, otherwise `IndexError`. -/
def pyGetNeg2 (l : List Int) : Except StatError Int :=
  if h : 2 ≤ l.length then .ok (l.get ⟨l.length - 2, by omega⟩)
  else .error .indexError

/-- Round-half-even to the nearest integer, as Python's `round` does. -/
def roundHalfEven (q : ℚ) : ℤ :=
  if q - (⌊q⌋ : ℚ) < 1/2 then ⌊q⌋
  else if 1/2 < q - (⌊q⌋ : ℚ) then ⌊q⌋ + 1
  else if ⌊q⌋ % 2 = 0 then ⌊q⌋ else ⌊q⌋ + 1

/-- Python's `round(x, 1)`, on the exact rational value. -/
def pyRound1 (q : ℚ) : ℚ :=
  (roundHalfEven (q * 10) : ℚ) / 10

/-- `calculate_salaries(rows)`, faithful to the statement order of the
source: build `salaries`, then `unique_salaries = list(sorted(set(...)))`,
then `unique_salaries[-2]` (possible `IndexError`), then
`round(sum(salaries)/len(salaries), 1)` (possible `ZeroDivisionError`). -/
def calculate_salaries (rows : List DerivedRow) :
    Except StatError (Int × ℚ) :=
  match extractSalaries rows with
  | .error e => .error e
  | .ok salaries =>
    match pyGetNeg2 (sortedDistinct salaries) with
    | .error e => .error e
    | .ok secondHighest =>
      if salaries.length = 0 then .error .zeroDivision
      else .ok (secondHighest,
        pyRound1 ((salaries.sum : ℚ) / (salaries.length : ℚ)))

/-- Python's `str.endswith(post)`: suffix test on the character lists.
(Modelled on lists so that the kernel can evaluate it.) -/
def strEndsWith (s post : String) : Bool :=
  post.toList.isSuffixOf s.toList

/-- One entry of the input directory, as the orchestrator sees it: a file
name and the parsed contents `read_dat_file` would return for it. -/
structure DatFile where
  name : String
  header : List String
  rows : List Row
deriving DecidableEq

/-- The observable side effects of `main`, in order: creating the `result`
directory, logging the header-mismatch warning, and writing the single
output file. -/
inductive Event where
  | headerMismatchWarning
  | mkdirResult
  | wroteOutputFile
deriving DecidableEq

/-- The fatal error kinds `main` can propagate: no `.dat` files found, a
merge-stage exception, or a statistics-stage exception. -/
inductive MainError where
  | noInputFiles
  | mergeError : MergeError → MainError
  | statError : StatError → MainError
deriving DecidableEq

/-- What a successful run writes to the output file: the final header row,
the merged rows, and the footer statistics. -/
structure Output where
  headers : List String
  rows : List DerivedRow
  secondHighest : Int
  average : ℚ
deriving DecidableEq

/-- `main(input_dir)`: filter the directory listing for names ending in
`.dat`; abort with `noInputFiles` if none (before any filesystem write);
check headers (a mismatch only logs a warning); ensure the output
directory; merge and deduplicate; compute statistics; write the output
file, whose header is the first file's header with `"Gross Salary"`
appended.  Returns the event trace together with the result. -/
def mainRun (dir : List DatFile) : List Event × Except MainError Output :=
  match dir.filter (fun f => strEndsWith f.name ".dat") with
  | [] => ([], .error .noInputFiles)
  | f0 :: rest =>
    let warnEvents :=
      if (f0 :: rest).all (fun f => f.header = f0.header) then []
      else [Event.headerMismatchWarning]
    let events := warnEvents ++ [Event.mkdirResult]
    match combine_deduplicate_and_calculate_salary
        ((f0 :: rest).map (fun f => f.rows)) with
    | .error e => (events, .error (.mergeError e))
    | .ok merged =>
      match calculate_salaries merged with
      | .error e => (events, .error (.statError e))
      | .ok (sh, avg) =>
        (events ++ [Event.wroteOutputFile],
         .ok ⟨f0.header ++ ["Gross Salary"], merged, sh, avg⟩)

/-- Spec-side characterisation of "the second-largest distinct value" of a
list of values: `r` occurs among the values and there is a maximum `m`
strictly above `r` such that every value other than `m` is at most `r`. -/
def IsSecondLargestDistinct (vals : List Int) (r : Int) : Prop :=
  r ∈ vals ∧ ∃ m, m ∈ vals ∧ r < m ∧ (∀ v ∈ vals, v ≤ m) ∧
    ∀ v ∈ vals, v ≠ m → v ≤ r

/-- Replace a directory entry's header using `g`, leaving its name and
rows unchanged.  Used to state that headers never influence whether a run
succeeds. -/
def withHeader (g : List String → List String) (f : DatFile) : DatFile :=
  ⟨f.name, g f.header, f.rows⟩

/-! ## Lemmas about the merge stage -/

lemma dedupRowsAux_append (xs ys : List Row) (seen : List Row)
    (acc : List DerivedRow) :
    dedupRowsAux seen acc (xs ++ ys) =
      match dedupRowsAux seen acc xs with
      | .error e => .error e
      | .ok (s, a) => dedupRowsAux s a ys := by
  induction xs generalizing seen acc with
  | nil => simp [dedupRowsAux]
  | cons row rest ih =>
    simp only [List.cons_append, dedupRowsAux]
    by_cases hmem : row ∈ seen
    · simp [hmem, ih]
    · simp only [hmem, if_false]
      cases rowSalary row with
      | error e => rfl
      | ok g => simp [ih]

lemma dedupFilesAux_eq_flatten (files : List (List Row)) (seen : List Row)
    (acc : List DerivedRow) :
    dedupFilesAux seen acc files =
      match dedupRowsAux seen acc files.flatten with
      | .error e => .error e
      | .ok (_, a) => .ok a := by
  induction files generalizing seen acc with
  | nil => simp [dedupFilesAux, dedupRowsAux]
  | cons rows rest ih =>
    simp only [dedupFilesAux, List.flatten_cons, dedupRowsAux_append]
    cases h : dedupRowsAux seen acc rows with
    | error e => simp
    | ok sa =>
      obtain ⟨s, a⟩ := sa
      simp [ih]

lemma specFirstDedupAux_mem {α : Type} [DecidableEq α] (l : List α)
    (seen : List α) (a : α) :
    a ∈ specFirstDedupAux seen l ↔ a ∈ l ∧ a ∉ seen := by
  induction l generalizing seen with
  | nil => simp [specFirstDedupAux]
  | cons b rest ih =>
    simp only [specFirstDedupAux]
    by_cases hb : b ∈ seen
    · simp only [hb, if_true, ih, List.mem_cons]
      constructor
      · rintro ⟨hr, hs⟩
        exact ⟨Or.inr hr, hs⟩
      · rintro ⟨hr | hr, hs⟩
        · exact absurd (hr ▸ hb) hs
        · exact ⟨hr, hs⟩
    · simp only [hb, if_false, List.mem_cons, ih, List.mem_cons, not_or]
      constructor
      · rintro (rfl | ⟨hr, hab, hs⟩)
        · exact ⟨Or.inl rfl, hb⟩
        · exact ⟨Or.inr hr, hs⟩
      · rintro ⟨rfl | hr, hs⟩
        · exact Or.inl rfl
        · by_cases hab : a = b
          · exact Or.inl hab
          · exact Or.inr ⟨hr, hab, hs⟩

lemma specFirstDedupAux_nodup {α : Type} [DecidableEq α] (l : List α)
    (seen : List α) : (specFirstDedupAux seen l).Nodup := by
  induction l generalizing seen with
  | nil => simp [specFirstDedupAux]
  | cons b rest ih =>
    simp only [specFirstDedupAux]
    by_cases hb : b ∈ seen
    · simp [hb, ih]
    · simp only [hb, if_false, List.nodup_cons]
      refine ⟨fun hmem => ?_, ih _⟩
      have := (specFirstDedupAux_mem rest (b :: seen) b).1 hmem
      exact this.2 (List.mem_cons_self _ _)

lemma specFirstDedupAux_eq_self {α : Type} [DecidableEq α] (l : List α)
    (seen : List α) (hn : l.Nodup) (hd : ∀ a ∈ l, a ∉ seen) :
    specFirstDedupAux seen l = l := by
  induction l generalizing seen with
  | nil => rfl
  | cons b rest ih =>
    have hb : b ∉ seen := hd b (List.mem_cons_self _ _)
    simp only [specFirstDedupAux, hb, if_false]
    congr 1
    refine ih _ (List.Nodup.of_cons hn) ?_
    intro a ha
    simp only [List.mem_cons, not_or]
    exact ⟨fun hab => (List.nodup_cons.1 hn).1 (hab ▸ ha),
      hd a (List.mem_cons_of_mem _ ha)⟩

lemma dedupRowsAux_ok_spec (rows : List Row) (seen : List Row)
    (acc : List DerivedRow) (s2 : List Row) (a2 : List DerivedRow)
    (h : dedupRowsAux seen acc rows = .ok (s2, a2)) :
    ∃ news, a2 = acc ++ news ∧
      news.map List.dropLast
        = (specFirstDedupAux seen rows).map (List.map Cell.str) ∧
      ∀ m ∈ news, ∃ orig g, orig ∈ rows ∧ rowSalary orig = .ok g ∧
        m = mkDerivedRow orig g := by
  induction rows generalizing seen acc with
  | nil =>
    simp only [dedupRowsAux, Except.ok.injEq, Prod.mk.injEq] at h
    obtain ⟨-, h2⟩ := h
    subst h2
    exact ⟨[], by simp, by simp [specFirstDedupAux], by simp⟩
  | cons row rest ih =>
    simp only [dedupRowsAux] at h
    by_cases hmem : row ∈ seen
    · simp only [hmem, if_true] at h
      obtain ⟨news, heq, hmap, hsh⟩ := ih _ _ h
      refine ⟨news, heq, ?_, ?_⟩
      · simpa [specFirstDedupAux, hmem] using hmap
      · intro m hm
        obtain ⟨orig, g, ho, hg, hshape⟩ := hsh m hm
        exact ⟨orig, g, List.mem_cons_of_mem _ ho, hg, hshape⟩
    · simp only [hmem, if_false] at h
      cases hrs : rowSalary row with
      | error e => rw [hrs] at h; cases h
      | ok g =>
        rw [hrs] at h
        obtain ⟨news, heq, hmap, hsh⟩ := ih _ _ h
        refine ⟨mkDerivedRow row g :: news,
          by simpa [List.append_assoc] using heq, ?_, ?_⟩
        · simp only [specFirstDedupAux, hmem, if_false, List.map_cons, hmap,
            mkDerivedRow, List.dropLast_concat]
        · intro m hm
          rcases List.mem_cons.1 hm with rfl | hm2
          · exact ⟨row, g, List.mem_cons_self _ _, hrs, rfl⟩
          · obtain ⟨orig, g', ho, hg, hshape⟩ := hsh m hm2
            exact ⟨orig, g', List.mem_cons_of_mem _ ho, hg, hshape⟩

lemma cell_str_injective : Function.Injective Cell.str := by
  intro a b h
  injection h

lemma combine_ok_spec (all_rows : List (List Row)) (out : List DerivedRow)
    (h : combine_deduplicate_and_calculate_salary all_rows = .ok out) :
    out.map List.dropLast
      = (specFirstOccurrenceDedup all_rows.flatten).map (List.map Cell.str) ∧
    ∀ m ∈ out, ∃ orig g, orig ∈ all_rows.flatten ∧ rowSalary orig = .ok g ∧
      m = mkDerivedRow orig g := by
  rw [combine_deduplicate_and_calculate_salary,
    dedupFilesAux_eq_flatten] at h
  cases hd : dedupRowsAux [] [] all_rows.flatten with
  | error e => rw [hd] at h; cases h
  | ok sa =>
    rw [hd] at h
    cases sa with
    | mk s a =>
      simp only [Except.ok.injEq] at h
      subst h
      obtain ⟨news, heq, hmap, hsh⟩ := dedupRowsAux_ok_spec _ _ _ _ _ hd
      simp only [List.nil_append] at heq
      subst heq
      exact ⟨hmap, hsh⟩

lemma rowSalary_ok_iff (row : Row) (g : Int) :
    rowSalary row = .ok g ↔
      ∃ s5 b s6 a, row[5]? = some s5 ∧ parsePyInt s5 = some b ∧
        row[6]? = some s6 ∧ parsePyInt s6 = some a ∧ g = b + a := by
  unfold rowSalary
  cases h5 : row[5]? with
  | none => simp
  | some s5 =>
    cases hb : parsePyInt s5 with
    | none => simp [hb]
    | some b =>
      cases h6 : row[6]? with
      | none => simp [hb]
      | some s6 =>
        cases ha : parsePyInt s6 with
        | none => simp [hb, ha]
        | some a =>
          simp only [hb, ha, Except.ok.injEq, Option.some.injEq]
          constructor
          · rintro rfl
            exact ⟨s5, b, s6, a, rfl, hb, rfl, ha, rfl⟩
          · rintro ⟨s5x, bx, s6x, ax, rfl, hbx, rfl, hax, rfl⟩
            rw [hb] at hbx
            rw [ha] at hax
            cases hbx
            cases hax
            rfl

/-- C1: a successful merge produces exactly one output row per distinct
original row tuple, in first-occurrence order over the concatenation of all
files; when no row tuple occurs twice, the output row count equals the sum
of all input row counts. -/
theorem merge_firstOccurrence_dedup (all_rows : List (List Row))
    (out : List DerivedRow)
    (h : combine_deduplicate_and_calculate_salary all_rows = .ok out) :
    out.map List.dropLast
      = (specFirstOccurrenceDedup all_rows.flatten).map (List.map Cell.str)
  ∧ (out.map List.dropLast).Nodup
  ∧ (∀ r : Row, List.map Cell.str r ∈ out.map List.dropLast
      ↔ r ∈ all_rows.flatten)
  ∧ (all_rows.flatten.Nodup →
      out.length = (all_rows.map List.length).sum) := by
  obtain ⟨hmap, -⟩ := combine_ok_spec _ _ h
  have hinj : Function.Injective (List.map Cell.str) :=
    List.map_injective_iff.2 cell_str_injective
  refine ⟨hmap, ?_, ?_, ?_⟩
  · rw [hmap]
    exact (specFirstDedupAux_nodup _ _).map hinj
  · intro r
    rw [hmap, List.mem_map_of_injective hinj, specFirstOccurrenceDedup,
      specFirstDedupAux_mem]
    simp
  · intro hnd
    have hself : specFirstOccurrenceDedup all_rows.flatten
        = all_rows.flatten :=
      specFirstDedupAux_eq_self _ _ hnd (by simp)
    have hlen := congrArg List.length hmap
    simp only [List.length_map] at hlen
    rw [hself, List.length_flatten] at hlen
    exact hlen

/-- Witness for C1 at a concrete input: a duplicate row across two files is
kept once, the deduplicated original tuples are pairwise distinct. -/
theorem merge_firstOccurrence_dedup_witness :
    combine_deduplicate_and_calculate_salary
        [[["a","b","c","d","e","1","2"]],
         [["a","b","c","d","e","1","2"], ["x","b","c","d","e","3","4"]]]
      = .ok [[Cell.str "a", Cell.str "b", Cell.str "c", Cell.str "d",
              Cell.str "e", Cell.str "1", Cell.str "2", Cell.int 3],
             [Cell.str "x", Cell.str "b", Cell.str "c", Cell.str "d",
              Cell.str "e", Cell.str "3", Cell.str "4", Cell.int 7]]
  ∧ (([[Cell.str "a", Cell.str "b", Cell.str "c", Cell.str "d",
        Cell.str "e", Cell.str "1", Cell.str "2", Cell.int 3],
       [Cell.str "x", Cell.str "b", Cell.str "c", Cell.str "d",
        Cell.str "e", Cell.str "3", Cell.str "4", Cell.int 7]]).map
        List.dropLast).Nodup :=
  ⟨by rfl,
   (merge_firstOccurrence_dedup
     [[["a","b","c","d","e","1","2"]],
      [["a","b","c","d","e","1","2"], ["x","b","c","d","e","3","4"]]]
     [[Cell.str "a", Cell.str "b", Cell.str "c", Cell.str "d",
       Cell.str "e", Cell.str "1", Cell.str "2", Cell.int 3],
      [Cell.str "x", Cell.str "b", Cell.str "c", Cell.str "d",
       Cell.str "e", Cell.str "3", Cell.str "4", Cell.int 7]]
     (by rfl)).2.1⟩

/-- C2: every row retained by a successful merge is an original row with
integer-parseable fields at indices 5 and 6, unchanged, with exactly one
trailing field appended, equal to `int(row[5]) + int(row[6])`. -/
theorem merge_appends_gross_salary (all_rows : List (List Row))
    (out : List DerivedRow)
    (h : combine_deduplicate_and_calculate_salary all_rows = .ok out) :
    ∀ m ∈ out, ∃ orig s5 b s6 a,
      orig ∈ all_rows.flatten ∧
      orig[5]? = some s5 ∧ parsePyInt s5 = some b ∧
      orig[6]? = some s6 ∧ parsePyInt s6 = some a ∧
      m = orig.map Cell.str ++ [Cell.int (b + a)] := by
  intro m hm
  obtain ⟨-, hsh⟩ := combine_ok_spec _ _ h
  obtain ⟨orig, g, ho, hg, rfl⟩ := hsh m hm
  obtain ⟨s5, b, s6, a, h5, hb, h6, ha, rfl⟩ := (rowSalary_ok_iff _ _).1 hg
  exact ⟨orig, s5, b, s6, a, ho, h5, hb, h6, ha, rfl⟩

/-- Witness for C2 at the spec's example: basic salary 3000 and allowances
500 yield the appended gross salary 3500. -/
theorem merge_appends_gross_salary_witness :
    ∃ orig s5 b s6 a,
      orig ∈ ([[["emp1","n","p","q","r","3000","500"]]] :
        List (List Row)).flatten ∧
      orig[5]? = some s5 ∧ parsePyInt s5 = some b ∧
      orig[6]? = some s6 ∧ parsePyInt s6 = some a ∧
      ([Cell.str "emp1", Cell.str "n", Cell.str "p", Cell.str "q",
        Cell.str "r", Cell.str "3000", Cell.str "500", Cell.int 3500] :
        DerivedRow)
        = orig.map Cell.str ++ [Cell.int (b + a)] :=
  merge_appends_gross_salary [[["emp1","n","p","q","r","3000","500"]]]
    [[Cell.str "emp1", Cell.str "n", Cell.str "p", Cell.str "q",
      Cell.str "r", Cell.str "3000", Cell.str "500", Cell.int 3500]]
    (by rfl) _ (by decide)

lemma extract_ok_of_lastInt (rows : List DerivedRow)
    (h : ∀ m ∈ rows, ∃ g : Int, m.getLast? = some (Cell.int g)) :
    ∃ sal, extractSalaries rows = .ok sal ∧ sal.length = rows.length := by
  induction rows with
  | nil => exact ⟨[], rfl, rfl⟩
  | cons row rest ih =>
    obtain ⟨g, hg⟩ := h row (List.mem_cons_self _ _)
    obtain ⟨sal, hsal, hlen⟩ := ih (fun m hm => h m (List.mem_cons_of_mem _ hm))
    refine ⟨g :: sal, ?_, by simp [hlen]⟩
    simp [extractSalaries, rowLastSalary, hg, hsal, pyIntOfField]

/-- C10: every merged row's last field is the integer gross salary appended
by the merge, so the statistics stage's salary extraction always succeeds —
its value-conversion error branch is unreachable regardless of the original
string fields. -/
theorem merge_output_salary_column_total (all_rows : List (List Row))
    (out : List DerivedRow)
    (h : combine_deduplicate_and_calculate_salary all_rows = .ok out) :
    (∀ m ∈ out, ∃ g : Int, m.getLast? = some (Cell.int g))
  ∧ (∃ sal, extractSalaries out = .ok sal ∧ sal.length = out.length)
  ∧ extractSalaries out ≠ .error .valueConversion := by
  have hlast : ∀ m ∈ out, ∃ g : Int, m.getLast? = some (Cell.int g) := by
    intro m hm
    obtain ⟨-, hsh⟩ := combine_ok_spec _ _ h
    obtain ⟨orig, g, -, -, rfl⟩ := hsh m hm
    exact ⟨g, by simp [mkDerivedRow, List.getLast?_concat]⟩
  obtain ⟨sal, hsal, hlen⟩ := extract_ok_of_lastInt _ hlast
  refine ⟨hlast, ⟨sal, hsal, hlen⟩, ?_⟩
  rw [hsal]
  simp

/-- Witness for C10 at a concrete input whose original fields are not
integer-parseable strings apart from the salary columns. -/
theorem merge_output_salary_column_total_witness :
    ∃ sal, extractSalaries
        [[Cell.str "emp1", Cell.str "n", Cell.str "p", Cell.str "q",
          Cell.str "r", Cell.str "3000", Cell.str "500", Cell.int 3500]]
      = .ok sal ∧
      sal.length = ([[Cell.str "emp1", Cell.str "n", Cell.str "p",
        Cell.str "q", Cell.str "r", Cell.str "3000", Cell.str "500",
        Cell.int 3500]] : List DerivedRow).length :=
  (merge_output_salary_column_total
    [[["emp1","n","p","q","r","3000","500"]]]
    [[Cell.str "emp1", Cell.str "n", Cell.str "p", Cell.str "q",
      Cell.str "r", Cell.str "3000", Cell.str "500", Cell.int 3500]]
    (by rfl)).2.1

/-! ## Lemmas about the statistics stage -/

lemma extract_ok_length (rows : List DerivedRow) (sal : List Int)
    (h : extractSalaries rows = .ok sal) : sal.length = rows.length := by
  induction rows generalizing sal with
  | nil =>
    simp only [extractSalaries, Except.ok.injEq] at h
    subst h
    rfl
  | cons row rest ih =>
    simp only [extractSalaries] at h
    cases h1 : rowLastSalary row with
    | error e => rw [h1] at h; cases h
    | ok n =>
      rw [h1] at h
      cases h2 : extractSalaries rest with
      | error e => rw [h2] at h; cases h
      | ok ns =>
        rw [h2] at h
        simp only [Except.ok.injEq] at h
        subst h
        simp [ih ns h2]

lemma pyIntOfField_error_kind (f : Cell) (e : StatError)
    (h : pyIntOfField f = .error e) : e = .valueConversion := by
  unfold pyIntOfField at h
  split at h
  · cases h
  · split at h
    · cases h
    · cases h
      rfl

lemma rowLastSalary_error_kind (row : DerivedRow) (e : StatError)
    (h : rowLastSalary row = .error e) :
    e = .valueConversion ∨ e = .indexError := by
  unfold rowLastSalary at h
  split at h
  · cases h
    exact Or.inr rfl
  · exact Or.inl (pyIntOfField_error_kind _ _ h)

lemma extract_error_kind (rows : List DerivedRow) (e : StatError)
    (h : extractSalaries rows = .error e) :
    e = .valueConversion ∨ e = .indexError := by
  induction rows with
  | nil => cases h
  | cons row rest ih =>
    simp only [extractSalaries] at h
    split at h
    · cases h
      exact rowLastSalary_error_kind row e (by assumption)
    · split at h
      · cases h
        exact ih (by assumption)
      · cases h

lemma sortedDistinct_perm (l : List Int) :
    List.Perm (sortedDistinct l) l.dedup :=
  List.perm_insertionSort _ _

lemma sortedDistinct_sorted (l : List Int) :
    (sortedDistinct l).Sorted (· ≤ ·) :=
  List.sorted_insertionSort _ _

lemma sortedDistinct_nodup (l : List Int) : (sortedDistinct l).Nodup :=
  ((sortedDistinct_perm l).nodup_iff).2 (List.nodup_dedup l)

lemma sortedDistinct_mem (l : List Int) (a : Int) :
    a ∈ sortedDistinct l ↔ a ∈ l := by
  rw [(sortedDistinct_perm l).mem_iff, List.mem_dedup]

lemma sortedDistinct_length (l : List Int) :
    (sortedDistinct l).length = l.dedup.length :=
  (sortedDistinct_perm l).length_eq

lemma sorted_nodup_second (l : List Int) (hs : l.Sorted (· ≤ ·))
    (hn : l.Nodup) (h2 : 2 ≤ l.length) :
    ∃ m, m ∈ l ∧ l.get ⟨l.length - 2, by omega⟩ < m ∧
      (∀ v ∈ l, v ≤ m) ∧
      ∀ v ∈ l, v ≠ m → v ≤ l.get ⟨l.length - 2, by omega⟩ := by
  have hlt : l.Sorted (· < ·) := hs.lt_of_le hn
  refine ⟨l.get ⟨l.length - 1, by omega⟩, l.get_mem _ _, ?_, ?_, ?_⟩
  · exact hlt.rel_get_of_lt (by simp [Fin.lt_def]; omega)
  · intro v hv
    obtain ⟨j, rfl⟩ := List.mem_iff_get.1 hv
    exact hs.rel_get_of_le (by simp [Fin.le_def]; omega)
  · intro v hv hne
    obtain ⟨j, rfl⟩ := List.mem_iff_get.1 hv
    have hj : j.val < l.length := j.isLt
    by_cases hj1 : j.val = l.length - 1
    · exfalso
      apply hne
      congr 1
      exact Fin.ext hj1
    · exact hs.rel_get_of_le (by simp [Fin.le_def]; omega)

lemma mainRun_ok_spec (dir : List DatFile) (tr : List Event) (out : Output)
    (h : mainRun dir = (tr, .ok out)) :
    ∃ f0 rest, dir.filter (fun f => strEndsWith f.name ".dat") = f0 :: rest ∧
      combine_deduplicate_and_calculate_salary
          ((f0 :: rest).map (fun f => f.rows)) = .ok out.rows ∧
      calculate_salaries out.rows = .ok (out.secondHighest, out.average) ∧
      out.headers = f0.header ++ ["Gross Salary"] ∧
      tr = (if (f0 :: rest).all (fun f => f.header = f0.header) then
              ([] : List Event)
            else [Event.headerMismatchWarning])
           ++ [Event.mkdirResult] ++ [Event.wroteOutputFile] := by
  unfold mainRun at h
  split at h
  · simp at h
  · rename_i f0 rest hf
    split at h
    all_goals rename_i hall
    all_goals split at h
    · simp at h
    · rename_i merged hc
      split at h
      · simp at h
      · rename_i sh avg hs
        simp only [Prod.mk.injEq, Except.ok.injEq] at h
        obtain ⟨htr, hout⟩ := h
        subst hout
        subst htr
        refine ⟨f0, rest, hf, hc, hs, rfl, ?_⟩
        rw [if_pos hall]
    · simp at h
    · rename_i merged hc
      split at h
      · simp at h
      · rename_i sh avg hs
        simp only [Prod.mk.injEq, Except.ok.injEq] at h
        obtain ⟨htr, hout⟩ := h
        subst hout
        subst htr
        refine ⟨f0, rest, hf, hc, hs, rfl, ?_⟩
        rw [if_neg hall]

lemma pyRound1_intCast (n : ℤ) : pyRound1 ((n : ℚ)) = (n : ℚ) := by
  unfold pyRound1 roundHalfEven
  have h10 : ((n : ℚ)) * 10 = ((10 * n : ℤ) : ℚ) := by
    push_cast
    ring
  rw [h10, Int.floor_intCast]
  rw [if_pos (by norm_num)]
  push_cast
  ring

/-- C3: whenever the extracted gross-salary column has at least two
distinct values, `calculate_salaries` succeeds and its first component is
the second-largest distinct gross-salary value. -/
theorem stats_second_highest_distinct (rows : List DerivedRow)
    (sal : List Int) (hx : extractSalaries rows = .ok sal)
    (h2 : 2 ≤ sal.dedup.length) :
    ∃ sh avg, calculate_salaries rows = .ok (sh, avg) ∧
      IsSecondLargestDistinct sal sh := by
  have h2u : 2 ≤ (sortedDistinct sal).length := by
    rw [sortedDistinct_length]
    exact h2
  have hne : ¬ sal.length = 0 := by
    intro h0
    have hnil : sal = [] := List.length_eq_zero.1 h0
    subst hnil
    simp [List.dedup] at h2
  simp only [calculate_salaries, hx]
  unfold pyGetNeg2
  rw [dif_pos h2u]
  simp only [if_neg hne]
  refine ⟨(sortedDistinct sal).get ⟨(sortedDistinct sal).length - 2,
    by omega⟩, _, rfl, ?_⟩
  obtain ⟨m, hm, hlt, hmax, hsecond⟩ :=
    sorted_nodup_second (sortedDistinct sal) (sortedDistinct_sorted sal)
      (sortedDistinct_nodup sal) h2u
  refine ⟨(sortedDistinct_mem sal _).1 (List.get_mem _ _ _), m,
    (sortedDistinct_mem sal _).1 hm, hlt, ?_, ?_⟩
  · intro v hv
    exact hmax v ((sortedDistinct_mem sal v).2 hv)
  · intro v hv hvm
    exact hsecond v ((sortedDistinct_mem sal v).2 hv) hvm

/-- Witness for C3 at the spec's example: distinct gross salaries
100, 200, 300 give second highest 200. -/
theorem stats_second_highest_distinct_witness :
    calculate_salaries [[Cell.int 100], [Cell.int 200], [Cell.int 300]]
      = .ok (200, 200)
  ∧ ∃ sh avg,
      calculate_salaries [[Cell.int 100], [Cell.int 200], [Cell.int 300]]
        = .ok (sh, avg) ∧
      IsSecondLargestDistinct [100, 200, 300] sh := by
  refine ⟨?_, stats_second_highest_distinct
    [[Cell.int 100], [Cell.int 200], [Cell.int 300]] [100, 200, 300]
    (by rfl) (by decide)⟩
  have h2 : calculate_salaries [[Cell.int 100], [Cell.int 200], [Cell.int 300]]
      = .ok ((sortedDistinct [100, 200, 300]).get ⟨1, by decide⟩,
        pyRound1 ((([100, 200, 300] : List ℤ).sum : ℚ)
          / (([100, 200, 300] : List ℤ).length : ℚ))) := rfl
  rw [h2]
  have h1 : ((([100, 200, 300] : List ℤ).sum : ℚ)
      / (([100, 200, 300] : List ℤ).length : ℚ)) = ((200 : ℤ) : ℚ) := by
    norm_num
  rw [h1, pyRound1_intCast]
  norm_num
  decide

/-- C4: given a successfully extracted salary column, the statistics stage
raises its index error (`InsufficientData`) exactly when there are fewer
than 2 distinct gross-salary values, and a completed run is incompatible
with that error. -/
theorem stats_insufficient_distinct_iff (rows : List DerivedRow)
    (sal : List Int) (hx : extractSalaries rows = .ok sal) :
    (calculate_salaries rows = .error .indexError ↔ sal.dedup.length < 2)
  ∧ ∀ dir tr out, mainRun dir = (tr, .ok out) →
      calculate_salaries out.rows ≠ .error .indexError := by
  constructor
  · simp only [calculate_salaries, hx]
    unfold pyGetNeg2
    rcases Nat.lt_or_ge sal.dedup.length 2 with hlt | hge
    · have hnot : ¬ 2 ≤ (sortedDistinct sal).length := by
        rw [sortedDistinct_length]
        omega
      rw [dif_neg hnot]
      simpa using hlt
    · have h2u : 2 ≤ (sortedDistinct sal).length := by
        rw [sortedDistinct_length]
        exact hge
      rw [dif_pos h2u]
      have hR : ¬ sal.dedup.length < 2 := by omega
      simp only [hR, iff_false]
      intro hcon
      by_cases h0 : sal.length = 0
      · rw [if_pos h0] at hcon
        cases hcon
      · rw [if_neg h0] at hcon
        cases hcon
  · intro dir tr out hmain
    obtain ⟨f0, rest, -, -, hcalc, -, -⟩ := mainRun_ok_spec _ _ _ hmain
    rw [hcalc]
    simp

/-- Witness for C4 at the spec's example: all rows sharing the single
distinct gross salary 500 raise the index error. -/
theorem stats_insufficient_distinct_iff_witness :
    (calculate_salaries [[Cell.int 500], [Cell.str "x", Cell.int 500]]
        = .error .indexError
      ↔ ([500, 500] : List Int).dedup.length < 2)
  ∧ calculate_salaries [[Cell.int 500], [Cell.str "x", Cell.int 500]]
      = .error .indexError :=
  ⟨(stats_insufficient_distinct_iff
      [[Cell.int 500], [Cell.str "x", Cell.int 500]] [500, 500]
      (by rfl)).1,
   by rfl⟩

lemma roundHalfEven_close (q : ℚ) :
    |((roundHalfEven q : ℤ) : ℚ) - q| ≤ 1 / 2 := by
  have h0 : ((⌊q⌋ : ℤ) : ℚ) ≤ q := Int.floor_le q
  have h1 : q < ((⌊q⌋ : ℤ) : ℚ) + 1 := Int.lt_floor_add_one q
  unfold roundHalfEven
  split_ifs with hlt hgt hev
  · rw [abs_le]
    constructor <;> linarith
  · rw [abs_le]
    push_cast
    constructor <;> linarith
  · have heq : q - ((⌊q⌋ : ℤ) : ℚ) = 1 / 2 := by linarith
    rw [abs_le]
    constructor <;> linarith
  · have heq : q - ((⌊q⌋ : ℤ) : ℚ) = 1 / 2 := by linarith
    rw [abs_le]
    push_cast
    constructor <;> linarith

lemma pyRound1_close (q : ℚ) : |pyRound1 q - q| ≤ 1 / 20 := by
  have h := roundHalfEven_close (q * 10)
  rw [abs_le] at h ⊢
  obtain ⟨h1, h2⟩ := h
  unfold pyRound1
  constructor
  · linarith
  · linarith

/-- C5: whenever the statistics stage returns, its second component is the
sum of all extracted gross salaries (duplicates counted) divided by the row
count, rounded to one decimal place; the result is a multiple of 1/10
within 1/20 of the exact mean. -/
theorem stats_average_formula (rows : List DerivedRow) (sal : List Int)
    (sh : Int) (avg : ℚ) (hx : extractSalaries rows = .ok sal)
    (hc : calculate_salaries rows = .ok (sh, avg)) :
    avg = pyRound1 ((sal.sum : ℚ) / (rows.length : ℚ))
  ∧ sal.length = rows.length
  ∧ (∃ k : ℤ, avg = (k : ℚ) / 10)
  ∧ |avg - (sal.sum : ℚ) / (rows.length : ℚ)| ≤ 1 / 20 := by
  have hlen := extract_ok_length rows sal hx
  simp only [calculate_salaries, hx] at hc
  split at hc
  · cases hc
  · rename_i second hsec
    split at hc
    · cases hc
    · rename_i h0
      simp only [Except.ok.injEq, Prod.mk.injEq] at hc
      obtain ⟨-, havg⟩ := hc
      have havg2 : avg = pyRound1 ((sal.sum : ℚ) / (rows.length : ℚ)) := by
        rw [← havg, hlen]
      refine ⟨havg2, hlen, ?_, ?_⟩
      · exact ⟨roundHalfEven ((sal.sum : ℚ) / (rows.length : ℚ) * 10),
          by rw [havg2]; rfl⟩
      · rw [havg2]
        exact pyRound1_close _

/-- Witness for C5 at the spec's example: gross salaries 100, 200, 300
give average 200.0. -/
theorem stats_average_formula_witness :
    pyRound1 ((([100, 200, 300] : List ℤ).sum : ℚ)
        / (([[Cell.int 100], [Cell.int 200], [Cell.int 300]] :
            List DerivedRow).length : ℚ))
      = pyRound1 ((([100, 200, 300] : List ℤ).sum : ℚ)
        / (([[Cell.int 100], [Cell.int 200], [Cell.int 300]] :
            List DerivedRow).length : ℚ))
  ∧ ([100, 200, 300] : List ℤ).length
      = ([[Cell.int 100], [Cell.int 200], [Cell.int 300]] :
          List DerivedRow).length
  ∧ pyRound1 ((([100, 200, 300] : List ℤ).sum : ℚ)
      / (([[Cell.int 100], [Cell.int 200], [Cell.int 300]] :
          List DerivedRow).length : ℚ)) = 200 := by
  have happ := stats_average_formula
    [[Cell.int 100], [Cell.int 200], [Cell.int 300]] [100, 200, 300]
    ((sortedDistinct [100, 200, 300]).get ⟨1, by decide⟩)
    (pyRound1 ((([100, 200, 300] : List ℤ).sum : ℚ)
      / (([[Cell.int 100], [Cell.int 200], [Cell.int 300]] :
          List DerivedRow).length : ℚ)))
    (by rfl) (by rfl)
  refine ⟨happ.1, happ.2.1, ?_⟩
  have h1 : ((([100, 200, 300] : List ℤ).sum : ℚ)
      / (([[Cell.int 100], [Cell.int 200], [Cell.int 300]] :
          List DerivedRow).length : ℚ)) = ((200 : ℤ) : ℚ) := by
    norm_num
  rw [h1, pyRound1_intCast]
  norm_num

/-- Counterexample to C6: with zero rows `calculate_salaries` raises the
index error (from `unique_salaries[-2]` on the empty sorted set), not the
zero-division error the claim names — the division is never reached. -/
theorem stats_empty_rows_counterexample :
    calculate_salaries ([] : List DerivedRow) = .error .indexError
  ∧ calculate_salaries ([] : List DerivedRow) ≠ .error .zeroDivision := by
  constructor
  · rfl
  · intro h
    injection h with h2
    cases h2

/-- C6 (amended): zero rows make `calculate_salaries` fail with the index
error raised by `unique_salaries[-2]` before the division is evaluated; no
input at all can reach the zero-division branch, and a completed run never
has zero rows. -/
theorem stats_empty_rows_index_error :
    calculate_salaries ([] : List DerivedRow) = .error .indexError
  ∧ (∀ rows : List DerivedRow,
      calculate_salaries rows ≠ .error .zeroDivision)
  ∧ (∀ dir tr out, mainRun dir = (tr, .ok out) → out.rows ≠ []) := by
  refine ⟨rfl, ?_, ?_⟩
  · intro rows h
    unfold calculate_salaries at h
    split at h
    · rename_i e hx
      cases h
      rcases extract_error_kind _ _ hx with h1 | h1 <;> cases h1
    · rename_i sal hx
      split at h
      · rename_i e2 hsec
        cases h
        unfold pyGetNeg2 at hsec
        split at hsec
        · cases hsec
        · cases hsec
      · rename_i second hsec
        split at h
        · rename_i h0
          unfold pyGetNeg2 at hsec
          split at hsec
          · rename_i h2
            rw [sortedDistinct_length] at h2
            have hle := (List.dedup_sublist sal).length_le
            omega
          · cases hsec
        · cases h
  · intro dir tr out hmain hnil
    obtain ⟨f0, rest, -, -, hcalc, -, -⟩ := mainRun_ok_spec _ _ _ hmain
    rw [hnil] at hcalc
    cases hcalc

/-- Witness instantiating the amended C6 on concrete inputs. -/
theorem stats_empty_rows_index_error_witness :
    calculate_salaries ([[Cell.int 1], [Cell.int 2]] : List DerivedRow)
      ≠ .error .zeroDivision :=
  stats_empty_rows_index_error.2.1 [[Cell.int 1], [Cell.int 2]]

/-- Counterexample to C7: a 6-field row whose field at index 5 is not
integer-parseable makes the merge raise the value-conversion error, even
though the row has fewer than 7 fields — contradicting the claim that such
a row signals the missing-field error. -/
theorem merge_short_unparsable_counterexample :
    combine_deduplicate_and_calculate_salary [[["a","b","c","d","e","x"]]]
      = .error .valueConversion
  ∧ (["a","b","c","d","e","x"] : Row).length < 7
  ∧ combine_deduplicate_and_calculate_salary [[["a","b","c","d","e","x"]]]
      ≠ .error .missingField := by
  refine ⟨rfl, by decide, ?_⟩
  intro h
  injection h with h2
  cases h2

/-- C7 (amended): a fresh row signals the missing-field error exactly when
it has fewer than 6 fields, or exactly 6 fields with a parseable field 5;
it signals the value-conversion error exactly when field 5 exists and is
unparseable, or fields 5 and 6 exist with field 5 parseable and field 6
unparseable (so a too-short row with an unparseable field 5 raises
value conversion, not missing field); duplicate rows are skipped without
any field access; a merge error is fatal — the run ends with that error
and no output file is written. -/
theorem merge_row_error_classification :
    (∀ row : Row, rowSalary row = .error .missingField ↔
      (row.length < 6 ∨ (row.length = 6 ∧
        ∃ s5 b, row[5]? = some s5 ∧ parsePyInt s5 = some b)))
  ∧ (∀ row : Row, rowSalary row = .error .valueConversion ↔
      ((∃ s5, row[5]? = some s5 ∧ parsePyInt s5 = none) ∨
       (∃ s5 b s6, row[5]? = some s5 ∧ parsePyInt s5 = some b ∧
         row[6]? = some s6 ∧ parsePyInt s6 = none)))
  ∧ (∀ (seen : List Row) (acc : List DerivedRow) (row : Row)
      (rest : List Row), row ∈ seen →
      dedupRowsAux seen acc (row :: rest) = dedupRowsAux seen acc rest)
  ∧ (∀ dir f0 rest,
      dir.filter (fun f => strEndsWith f.name ".dat") = f0 :: rest →
      ∀ e, combine_deduplicate_and_calculate_salary
          ((f0 :: rest).map (fun f => f.rows)) = .error e →
        (mainRun dir).2 = .error (.mergeError e) ∧
        Event.wroteOutputFile ∉ (mainRun dir).1) := by
  refine ⟨?_, ?_, ?_, ?_⟩
  · intro row
    cases h5 : row[5]? with
    | none =>
      have hlen : row.length ≤ 5 := List.getElem?_eq_none_iff.1 h5
      have hval : rowSalary row = .error .missingField := by
        simp [rowSalary, h5]
      rw [hval]
      exact ⟨fun _ => Or.inl (by omega), fun _ => rfl⟩
    | some s5 =>
      have hlen5 : 5 < row.length := (List.getElem?_eq_some.1 h5).1
      cases hb : parsePyInt s5 with
      | none =>
        have hval : rowSalary row = .error .valueConversion := by
          simp [rowSalary, h5, hb]
        rw [hval]
        constructor
        · intro h
          injection h with h2
          cases h2
        · rintro (hl | ⟨hl6, s5x, bx, h5x, hbx⟩)
          · omega
          · cases h5x
            rw [hb] at hbx
            cases hbx
      | some b =>
        cases h6 : row[6]? with
        | none =>
          have hlen6 : row.length ≤ 6 := List.getElem?_eq_none_iff.1 h6
          have hval : rowSalary row = .error .missingField := by
            simp [rowSalary, h5, hb, h6]
          rw [hval]
          constructor
          · intro _
            exact Or.inr ⟨by omega, s5, b, rfl, hb⟩
          · intro _
            rfl
        | some s6 =>
          have hlen7 : 6 < row.length := (List.getElem?_eq_some.1 h6).1
          cases ha : parsePyInt s6 with
          | none =>
            have hval : rowSalary row = .error .valueConversion := by
              simp [rowSalary, h5, hb, h6, ha]
            rw [hval]
            constructor
            · intro h
              injection h with h2
              cases h2
            · rintro (hl | ⟨hl6, -⟩) <;> omega
          | some a =>
            have hval : rowSalary row = .ok (b + a) := by
              simp [rowSalary, h5, hb, h6, ha]
            rw [hval]
            constructor
            · intro h
              cases h
            · rintro (hl | ⟨hl6, -⟩) <;> omega
  · intro row
    cases h5 : row[5]? with
    | none =>
      have hval : rowSalary row = .error .missingField := by
        simp [rowSalary, h5]
      rw [hval]
      constructor
      · intro h
        injection h with h2
        cases h2
      · rintro (⟨s5x, h5x, -⟩ | ⟨s5x, bx, s6x, h5x, -⟩) <;> cases h5x
    | some s5 =>
      cases hb : parsePyInt s5 with
      | none =>
        have hval : rowSalary row = .error .valueConversion := by
          simp [rowSalary, h5, hb]
        rw [hval]
        exact ⟨fun _ => Or.inl ⟨s5, rfl, hb⟩, fun _ => rfl⟩
      | some b =>
        cases h6 : row[6]? with
        | none =>
          have hval : rowSalary row = .error .missingField := by
            simp [rowSalary, h5, hb, h6]
          rw [hval]
          constructor
          · intro h
            injection h with h2
            cases h2
          · rintro (⟨s5x, h5x, hbx⟩ | ⟨s5x, bx, s6x, h5x, hbx, h6x, -⟩)
            · cases h5x
              rw [hb] at hbx
              cases hbx
            · cases h6x
        | some s6 =>
          cases ha : parsePyInt s6 with
          | none =>
            have hval : rowSalary row = .error .valueConversion := by
              simp [rowSalary, h5, hb, h6, ha]
            rw [hval]
            exact ⟨fun _ => Or.inr ⟨s5, b, s6, rfl, hb, rfl, ha⟩,
              fun _ => rfl⟩
          | some a =>
            have hval : rowSalary row = .ok (b + a) := by
              simp [rowSalary, h5, hb, h6, ha]
            rw [hval]
            constructor
            · intro h
              cases h
            · rintro (⟨s5x, h5x, hbx⟩ | ⟨s5x, bx, s6x, h5x, hbx, h6x, hax⟩)
              · cases h5x
                rw [hb] at hbx
                cases hbx
              · cases h6x
                rw [ha] at hax
                cases hax
  · intro seen acc row rest hmem
    simp [dedupRowsAux, hmem]
  · intro dir f0 rest hf e hc
    have hmain : mainRun dir =
        ((if (f0 :: rest).all (fun f => f.header = f0.header) then
            ([] : List Event)
          else [Event.headerMismatchWarning]) ++ [Event.mkdirResult],
         .error (.mergeError e)) := by
      unfold mainRun
      rw [hf]
      simp only [hc]
    rw [hmain]
    constructor
    · rfl
    · split <;> simp

/-- Witness for the amended C7: a duplicate row (even an unparseable one)
is skipped without error. -/
theorem merge_row_error_classification_witness :
    dedupRowsAux [["short"]] [] [["short"]]
      = .ok ([["short"]], []) := by
  rw [merge_row_error_classification.2.2.1 [["short"]] [] ["short"] []
    (by decide)]
  rfl

/-- C8: a run either completes and writes exactly one output file, or
fails having written none; with no `.dat` entries it fails with
`noInputFiles` before any filesystem write. -/
theorem run_all_or_nothing (dir : List DatFile) (tr : List Event)
    (r : Except MainError Output) (h : mainRun dir = (tr, r)) :
    ((∃ e, r = .error e) → tr.count Event.wroteOutputFile = 0)
  ∧ (∀ o, r = .ok o → tr.count Event.wroteOutputFile = 1)
  ∧ (dir.filter (fun f => strEndsWith f.name ".dat") = [] →
      r = .error .noInputFiles ∧ tr = []) := by
  unfold mainRun at h
  split at h
  · rename_i hf
    simp only [Prod.mk.injEq] at h
    obtain ⟨htr, hr⟩ := h
    subst htr
    subst hr
    refine ⟨fun _ => rfl, ?_, fun _ => ⟨rfl, rfl⟩⟩
    intro o ho
    simp at ho
  · rename_i f0 rest hf
    have hfne : ¬ dir.filter (fun f => strEndsWith f.name ".dat") = [] := by
      rw [hf]
      simp
    split at h
    · split at h
      · simp only [Prod.mk.injEq] at h
        obtain ⟨htr, hr⟩ := h
        subst htr
        subst hr
        refine ⟨fun _ => by decide, ?_, fun hcx => absurd hcx hfne⟩
        intro o ho
        simp at ho
      · rename_i merged hc
        split at h
        · simp only [Prod.mk.injEq] at h
          obtain ⟨htr, hr⟩ := h
          subst htr
          subst hr
          refine ⟨fun _ => by decide, ?_, fun hcx => absurd hcx hfne⟩
          intro o ho
          simp at ho
        · rename_i sh avg hs
          simp only [Prod.mk.injEq] at h
          obtain ⟨htr, hr⟩ := h
          subst htr
          subst hr
          refine ⟨?_, fun o ho => by decide, fun hcx => absurd hcx hfne⟩
          rintro ⟨e, he⟩
          simp at he
    · split at h
      · simp only [Prod.mk.injEq] at h
        obtain ⟨htr, hr⟩ := h
        subst htr
        subst hr
        refine ⟨fun _ => by decide, ?_, fun hcx => absurd hcx hfne⟩
        intro o ho
        simp at ho
      · rename_i merged hc
        split at h
        · simp only [Prod.mk.injEq] at h
          obtain ⟨htr, hr⟩ := h
          subst htr
          subst hr
          refine ⟨fun _ => by decide, ?_, fun hcx => absurd hcx hfne⟩
          intro o ho
          simp at ho
        · rename_i sh avg hs
          simp only [Prod.mk.injEq] at h
          obtain ⟨htr, hr⟩ := h
          subst htr
          subst hr
          refine ⟨?_, fun o ho => by decide, fun hcx => absurd hcx hfne⟩
          rintro ⟨e, he⟩
          simp at he

/-- Witness for C8: an empty directory has no `.dat` entries, the run
fails with `noInputFiles` and the trace is empty. -/
theorem run_all_or_nothing_witness :
    (Except.error MainError.noInputFiles : Except MainError Output)
      = .error MainError.noInputFiles
  ∧ ([] : List Event) = [] :=
  (run_all_or_nothing [] [] (.error MainError.noInputFiles) rfl).2.2 rfl

lemma withHeader_name (g : List String → List String) (f : DatFile) :
    (withHeader g f).name = f.name := rfl

lemma withHeader_rows (g : List String → List String) (f : DatFile) :
    (withHeader g f).rows = f.rows := rfl

lemma mainRun_snd (dir : List DatFile) :
    (mainRun dir).2 =
      match dir.filter (fun f => strEndsWith f.name ".dat") with
      | [] => .error .noInputFiles
      | f0 :: rest =>
        match combine_deduplicate_and_calculate_salary
            ((f0 :: rest).map (fun f => f.rows)) with
        | .error e => .error (.mergeError e)
        | .ok merged =>
          match calculate_salaries merged with
          | .error e => .error (.statError e)
          | .ok (sh, avg) =>
            .ok ⟨f0.header ++ ["Gross Salary"], merged, sh, avg⟩ := by
  unfold mainRun
  split
  · rfl
  · split
    all_goals split
    all_goals try rfl
    all_goals split
    all_goals rfl

lemma filter_withHeader (dir : List DatFile)
    (g : List String → List String) :
    (dir.map (withHeader g)).filter (fun f => strEndsWith f.name ".dat")
      = (dir.filter (fun f => strEndsWith f.name ".dat")).map (withHeader g) := by
  induction dir with
  | nil => rfl
  | cons f fs ih =>
    simp only [List.map_cons, List.filter_cons, withHeader_name]
    by_cases hp : (strEndsWith f.name ".dat") = true
    · simp [hp, ih]
    · simp [hp, ih]

/-- C9: a completed run's output header is the first discovered file's
header with `"Gross Salary"` appended; a header mismatch only logs the
warning, and replacing headers arbitrarily never changes whether the run
succeeds. -/
theorem run_header_handling :
    (∀ dir tr out, mainRun dir = (tr, .ok out) →
      ∃ f0 rest,
        dir.filter (fun f => strEndsWith f.name ".dat") = f0 :: rest ∧
        out.headers = f0.header ++ ["Gross Salary"] ∧
        (¬ (∀ f ∈ f0 :: rest, f.header = f0.header) →
          Event.headerMismatchWarning ∈ tr))
  ∧ ∀ (dir : List DatFile) (g : List String → List String),
      ((mainRun (dir.map (withHeader g))).2).isOk
        = ((mainRun dir).2).isOk := by
  constructor
  · intro dir tr out h
    obtain ⟨f0, rest, hf, hcomb, hcalc, hheads, htr⟩ :=
      mainRun_ok_spec _ _ _ h
    refine ⟨f0, rest, hf, hheads, ?_⟩
    intro hnall
    have hall : ¬ ((f0 :: rest).all (fun f => f.header = f0.header)
        = true) := by
      intro hx
      apply hnall
      intro f hfmem
      exact of_decide_eq_true (List.all_eq_true.1 hx f hfmem)
    rw [htr, if_neg hall]
    simp
  · intro dir g
    rw [mainRun_snd, mainRun_snd, filter_withHeader]
    cases hres : dir.filter (fun f => strEndsWith f.name ".dat") with
    | nil => rfl
    | cons f0 rest =>
      have hrows : (List.map (withHeader g) rest).map (fun f => f.rows)
          = rest.map (fun f => f.rows) := by
        rw [List.map_map]
        rfl
      simp only [List.map_cons, withHeader_rows, hrows]
      cases hc : combine_deduplicate_and_calculate_salary
          (f0.rows :: rest.map (fun f => f.rows)) with
      | error e => rfl
      | ok merged =>
        cases hs : calculate_salaries merged with
        | error e =>
          simp only [hs]
        | ok p =>
          obtain ⟨sh, avg⟩ := p
          simp only [hs]
          rfl

/-- Witness for C9: two files with different headers still give a
successful run, the warning is logged, and the output header is the first
file's header with `"Gross Salary"` appended. -/
theorem run_header_handling_witness :
    ∃ f0 rest,
      ([⟨"a.dat", ["A"], [["a","b","c","d","e","1","2"]]⟩,
        ⟨"b.dat", ["B"], [["x","b","c","d","e","3","4"]]⟩] :
          List DatFile).filter (fun f => strEndsWith f.name ".dat")
        = f0 :: rest ∧
      (⟨["A", "Gross Salary"],
        [[Cell.str "a", Cell.str "b", Cell.str "c", Cell.str "d",
          Cell.str "e", Cell.str "1", Cell.str "2", Cell.int 3],
         [Cell.str "x", Cell.str "b", Cell.str "c", Cell.str "d",
          Cell.str "e", Cell.str "3", Cell.str "4", Cell.int 7]],
        3,
        pyRound1 ((([3, 7] : List ℤ).sum : ℚ)
          / (([3, 7] : List ℤ).length : ℚ))⟩ : Output).headers
        = f0.header ++ ["Gross Salary"] ∧
      (¬ (∀ f ∈ f0 :: rest, f.header = f0.header) →
        Event.headerMismatchWarning ∈
          [Event.headerMismatchWarning, Event.mkdirResult,
           Event.wroteOutputFile]) :=
  run_header_handling.1
    [⟨"a.dat", ["A"], [["a","b","c","d","e","1","2"]]⟩,
     ⟨"b.dat", ["B"], [["x","b","c","d","e","3","4"]]⟩]
    [Event.headerMismatchWarning, Event.mkdirResult, Event.wroteOutputFile]
    ⟨["A", "Gross Salary"],
     [[Cell.str "a", Cell.str "b", Cell.str "c", Cell.str "d",
       Cell.str "e", Cell.str "1", Cell.str "2", Cell.int 3],
      [Cell.str "x", Cell.str "b", Cell.str "c", Cell.str "d",
       Cell.str "e", Cell.str "3", Cell.str "4", Cell.int 7]],
     3,
     pyRound1 ((([3, 7] : List ℤ).sum : ℚ)
       / (([3, 7] : List ℤ).length : ℚ))⟩
    (by rfl)
